import Mathlib

/-!
Verification of the SWE-bench agent core
(`swebench/agent/container_session.py`, `swebench/agent/metrics.py`,
`swebench/agent/agents/claude_agent.py`,
`swebench/agent/agents/openai_codex_agent.py`) against its
natural-language specification.

Python strings are modelled as lists of characters (`PyStr`); Python
`str` helper methods used by the code are given explicit executable
models below.  Wall-clock instants are modelled as rationals.
-/

namespace SweAgent

/-- A Python `str`: a sequence of Unicode code points. -/
abbrev PyStr := List Char

/-- The whitespace characters stripped by Python's `str.strip()` for
ASCII input (the full Unicode whitespace set is not needed by the code
under verification). -/
def pyIsSpace (c : Char) : Bool :=
  c == ' ' || c == '\t' || c == '\n' || c == '\r' || c == '\x0b' || c == '\x0c'

/-- Strip characters satisfying `p` from both ends of a string. -/
def pyStripChars (p : Char → Bool) (s : PyStr) : PyStr :=
  ((s.dropWhile p).reverse.dropWhile p).reverse

/-- Python `str.strip()` (no argument). -/
def pyStrip (s : PyStr) : PyStr := pyStripChars pyIsSpace s

/-- Python `s.rstrip("\n")`: remove trailing newline characters. -/
def pyRstripNl (s : PyStr) : PyStr :=
  (s.reverse.dropWhile (· == '\n')).reverse

/-- Python `s.split("\n")`: always returns at least one piece, empty
pieces preserved. -/
def pySplitNl : PyStr → List PyStr
  | [] => [[]]
  | c :: rest =>
    match pySplitNl rest with
    | [] => [[]]
    | l :: ls => if c = '\n' then [] :: l :: ls else (c :: l) :: ls

/-- Python `"\n".join(pieces)`. -/
def pyJoinNl : List PyStr → PyStr
  | [] => []
  | [l] => l
  | l :: l' :: ls => l ++ '\n' :: pyJoinNl (l' :: ls)

/-- Python `s[-k:]` for `k > 0`: the last `min k (length s)` characters. -/
def pyTakeLast (s : PyStr) (k : Nat) : PyStr := s.drop (s.length - k)

/-- The ten ASCII digit characters. -/
def digitChars : List Char := ['0', '1', '2', '3', '4', '5', '6', '7', '8', '9']

/-- Value of a (nonempty, all-digit) decimal digit string. -/
def digitsVal (s : PyStr) : Nat :=
  s.foldl (fun a c => a * 10 + (c.toNat - 48)) 0

/-- The digit-string core of Python `int(str)`: a nonempty run of
decimal digits (digit grouping underscores are not modelled; they never
occur in the sentinel lines this development reasons about). -/
def digitsToNat (s : PyStr) : Option Nat :=
  if s ≠ [] ∧ s.all Char.isDigit then some (digitsVal s) else none

/-- Python `int(str)` (raising `ValueError` modelled as `none`):
optional surrounding whitespace, optional sign, then decimal digits. -/
def pyParseInt (s : PyStr) : Option Int :=
  match pyStripChars pyIsSpace s with
  | [] => none
  | c :: rest =>
    if c = '-' then (digitsToNat rest).map (fun n => -(n : Int))
    else if c = '+' then (digitsToNat rest).map (fun n => (n : Int))
    else (digitsToNat (c :: rest)).map (fun n => (n : Int))

/-- Python `len(s.encode("utf-8"))`: total UTF-8 byte length. -/
def utf8Len (s : PyStr) : Nat := (s.map Char.utf8Size).sum

/-! ## `container_session.py` -/

/-- `MAX_OUTPUT_BYTES = 100 * 1024` (container_session.py line 17). -/
def MAX_OUTPUT_BYTES : Nat := 100 * 1024

/-- `MAX_COMMAND_TIMEOUT = 600` (container_session.py line 18). -/
def MAX_COMMAND_TIMEOUT : Int := 600

/-- The `CommandResult` dataclass. -/
structure CommandResult where
  output : PyStr
  exit_code : Int
  timed_out : Bool
  duration_seconds : Rat
  deriving Repr, DecidableEq

/-- The timeout clamping of `ContainerSession.execute`
(container_session.py lines 73-77): a positive caller value is capped at
`MAX_COMMAND_TIMEOUT`; `None`, zero or negative values fall back to the
session-level `command_timeout`. -/
def effectiveTimeout (timeout : Option Int) (command_timeout : Int) : Int :=
  match timeout with
  | some t => if t > 0 then min t MAX_COMMAND_TIMEOUT else command_timeout
  | none => command_timeout

/-- The sentinel tag injected by the command wrapper
(`echo "SWEBENCH_EXIT:$?"`, container_session.py line 82). -/
def sentinelTag : PyStr := "SWEBENCH_EXIT:".data

/-- Exit-code parsing of `ContainerSession.execute`
(container_session.py lines 91-101).  `last_line.split(":", 1)[1]` is
modelled as dropping the sentinel tag: inside the `startswith` branch
the first `':'` of the line is the tag's own final character.  Returns
the (possibly sentinel-stripped) output and the parsed exit code. -/
def parseExit (output : PyStr) (timed_out : Bool) : PyStr × Int :=
  let lines := pySplitNl (pyRstripNl output)
  if timed_out = false ∧ lines ≠ [] then
    let last_line := lines.getLastD []
    if sentinelTag.isPrefixOf last_line then
      let code : Int :=
        match pyParseInt (last_line.drop sentinelTag.length) with
        | some k => k
        | none => -1
      (pyJoinNl lines.dropLast, code)
    else (output, -1)
  else (output, -1)

/-- The truncation marker
`f"\n\n... [output truncated: {len(output)} bytes total] ...\n\n"`. -/
def truncMarker (n : Nat) : PyStr :=
  "\n\n... [output truncated: ".data ++ (toString n).data ++ " bytes total] ...\n\n".data

/-- Output truncation of `ContainerSession.execute`
(container_session.py lines 103-110). -/
def truncateOutput (s : PyStr) : PyStr :=
  if s.length > MAX_OUTPUT_BYTES then
    let half := MAX_OUTPUT_BYTES / 2
    s.take half ++ truncMarker s.length ++ pyTakeLast s half
  else s

/-- Exit-code parsing followed by truncation: the full output
post-processing pipeline of `execute`. -/
def processOutput (raw : PyStr) (timed_out : Bool) : PyStr × Int :=
  let (out, code) := parseExit raw timed_out
  (truncateOutput out, code)

/-- The observable outcome of `exec_run_with_timeout` (an external
harness helper, not part of the sources under verification): the raw
captured output, the timeout flag, and the measured duration. -/
structure ExecOutcome where
  output : PyStr
  timed_out : Bool
  duration : Rat

/-- `ContainerSession.execute` (container_session.py lines 64-117),
parametrised by the container-started flag, the session default
`command_timeout`, the caller `timeout`, and the outcome of the
underlying `exec_run_with_timeout` call.  Raising `RuntimeError` is
modelled as `Except.error`. -/
def execute (container_started : Bool) (command_timeout : Int)
    (timeout : Option Int) (outcome : ExecOutcome) : Except String CommandResult :=
  if container_started = false then
    .error "Container not started. Call start() first."
  else
    let _eff := effectiveTimeout timeout command_timeout
    let (out, code) := processOutput outcome.output outcome.timed_out
    .ok { output := out
          exit_code := code
          timed_out := outcome.timed_out
          duration_seconds := outcome.duration }

/-- `ContainerSession.get_patch` (container_session.py lines 119-124):
run `git diff` through `execute` and strip the result. -/
def get_patch (container_started : Bool) (command_timeout : Int)
    (gitDiff : ExecOutcome) : Except String PyStr :=
  if container_started = false then
    .error "Container not started. Call start() first."
  else
    match execute container_started command_timeout none gitDiff with
    | .ok r => .ok (pyStrip r.output)
    | .error e => .error e

/-! ## `metrics.py` -/

/-- The `AgentMetrics` dataclass (metrics.py lines 9-25). -/
structure AgentMetrics where
  instance_id : String := ""
  model_name_or_path : String := ""
  start_time : Rat := 0
  end_time : Rat := 0
  wall_clock_seconds : Rat := 0
  iterations : Nat := 0
  input_tokens : Nat := 0
  output_tokens : Nat := 0
  total_tokens : Nat := 0
  commands_executed : Nat := 0
  commands_timed_out : Nat := 0
  exit_reason : String := ""
  patch_produced : Bool := false
  patch_size_bytes : Nat := 0
  estimated_cost_usd : Rat := 0
  deriving Repr, DecidableEq

/-- `AgentMetrics.finalize` (metrics.py lines 34-43), with the
`stop_timer` call's `time.time()` reading passed in as `now`.  The
Python truthiness test `if patch:` is false exactly for `None` and the
empty string. -/
def finalize (m : AgentMetrics) (now : Rat) (patch : Option PyStr)
    (exit_reason : String) : AgentMetrics :=
  let m := { m with end_time := now, wall_clock_seconds := now - m.start_time }
  let m := { m with exit_reason := exit_reason
                    total_tokens := m.input_tokens + m.output_tokens }
  match patch with
  | some p =>
    if p ≠ [] then
      { m with patch_produced := true, patch_size_bytes := utf8Len p }
    else
      { m with patch_produced := false, patch_size_bytes := 0 }
  | none => { m with patch_produced := false, patch_size_bytes := 0 }

/-! ## `agents/claude_agent.py` — the control loop

The Anthropic API response is modelled by its observable parts: token
usage, stop reason, and the list of content blocks.  A `tool_use` block
for `execute_command` carries, in place of the live container call, the
`timed_out` flag of the `CommandResult` that `session.execute` returns
for it (the only part of the result the loop's metrics observe). -/

/-- A content block of an API response. -/
inductive Block
  | text (s : String)
  | toolUse (name : String) (execTimedOut : Bool)
  deriving Repr, DecidableEq

/-- One successful API response (`response.usage`, `response.stop_reason`,
`response.content`). -/
structure OracleResponse where
  input_tokens : Nat
  output_tokens : Nat
  stop_reason : String
  content : List Block
  deriving Repr

/-- Outcome of one `api_client.messages.create` call: a response, or an
exception (caught by the loop's `except` clause). -/
inductive OracleReply
  | ok (r : OracleResponse)
  | err
  deriving Repr

/-- `ClaudeAgent` configuration (claude_agent.py lines 85-96). -/
structure AgentCfg where
  max_iterations : Nat := 30
  agent_timeout : Rat := 1800
  max_token_budget : Nat := 0

/-- The loop-visible mutable state of one `solve` run: the metrics
accumulator, the `exit_reason` local, plus two observation counters
(`oracle_calls` counts `messages.create` invocations, `messages` the
length of the conversation list). -/
structure LoopSt where
  metrics : AgentMetrics
  exit_reason : String
  oracle_calls : Nat
  messages : Nat
  deriving Repr

/-- Whether a block makes the loop break out after this turn
(`submit_patch` or `give_up`). -/
def terminalBlock : Block → Bool
  | .toolUse n _ => n = "submit_patch" || n = "give_up"
  | .text _ => false

/-- Processing of one content block in the tool-dispatch loop
(claude_agent.py lines 174-230).  The accumulator carries the state,
the `should_break` flag, and the number of tool results collected. -/
def procBlock (acc : LoopSt × Bool × Nat) (b : Block) : LoopSt × Bool × Nat :=
  match b with
  | .text _ => acc
  | .toolUse name execTimedOut =>
    let (st, brk, nres) := acc
    if name = "execute_command" then
      let st := { st with metrics := { st.metrics with
        commands_executed := st.metrics.commands_executed + 1
        commands_timed_out := st.metrics.commands_timed_out +
          (if execTimedOut then 1 else 0) } }
      (st, brk, nres + 1)
    else if name = "submit_patch" then
      ({ st with exit_reason := "completed" }, true, nres + 1)
    else if name = "give_up" then
      ({ st with exit_reason := "gave_up" }, true, nres + 1)
    else
      (st, brk, nres + 1)

/-- The tool-dispatch loop over all blocks of one response. -/
def processBlocks (blocks : List Block) (st : LoopSt) : LoopSt × Bool × Nat :=
  blocks.foldl procBlock (st, false, 0)

/-- The body of one pass of the `for iteration in range(1,
max_iterations + 1)` loop (claude_agent.py lines 113-236): `i` is the
1-based iteration counter, `clock i` the elapsed wall-clock reading
taken at the top of iteration `i`, and `oracle i` the outcome of that
iteration's API call.  `.inl st` means the loop `break`s (or returns)
with state `st`; `.inr st` means it continues into the next
iteration. -/
def iterStep (cfg : AgentCfg) (clock : Nat → Rat) (oracle : Nat → OracleReply)
    (i : Nat) (st : LoopSt) : Sum LoopSt LoopSt :=
  if clock i > cfg.agent_timeout then
    .inl { st with exit_reason := "timeout" }
  else
    let st := { st with metrics := { st.metrics with iterations := i } }
    match oracle i with
    | .err => .inl { st with exit_reason := "error", oracle_calls := st.oracle_calls + 1 }
    | .ok r =>
      let st := { st with
        oracle_calls := st.oracle_calls + 1
        metrics := { st.metrics with
          input_tokens := st.metrics.input_tokens + r.input_tokens
          output_tokens := st.metrics.output_tokens + r.output_tokens } }
      if cfg.max_token_budget > 0 ∧
          st.metrics.input_tokens + st.metrics.output_tokens ≥ cfg.max_token_budget then
        .inl { st with exit_reason := "token_budget" }
      else
        let st := { st with messages := st.messages + 1 }
        if r.stop_reason ≠ "tool_use" then
          .inl { st with exit_reason := "completed" }
        else
          let (st, shouldBreak, nres) := processBlocks r.content st
          let st := if nres > 0 then { st with messages := st.messages + 1 } else st
          if shouldBreak then .inl st else .inr st

/-- The iteration loop in fuel-recursion form: `fuel` is the number of
iterations left. -/
def solveIter (cfg : AgentCfg) (clock : Nat → Rat) (oracle : Nat → OracleReply) :
    Nat → Nat → LoopSt → LoopSt
  | 0, _, st => st
  | fuel + 1, i, st =>
    match iterStep cfg clock oracle i st with
    | .inl stop => stop
    | .inr next => solveIter cfg clock oracle fuel (i + 1) next

/-- Initial loop state: fresh metrics `m0`, `exit_reason` preset to
`"max_iterations"` (claude_agent.py line 110), one user message. -/
def initSt (m0 : AgentMetrics) : LoopSt :=
  { metrics := m0, exit_reason := "max_iterations", oracle_calls := 0, messages := 1 }

/-- The whole iteration loop of `ClaudeAgent.solve`. -/
def solveLoop (cfg : AgentCfg) (clock : Nat → Rat) (oracle : Nat → OracleReply)
    (m0 : AgentMetrics) : LoopSt :=
  solveIter cfg clock oracle cfg.max_iterations 1 (initSt m0)

/-- The `AgentResult` record produced by `solve`. -/
structure AgentResultM where
  model_patch : Option PyStr
  metrics : AgentMetrics
  exit_reason : String

/-- `solve`'s full outcome, with the number of `session.get_patch()`
attempts recorded as an observation counter. -/
structure SolveOut where
  result : AgentResultM
  patch_calls : Nat
  final_state : LoopSt

/-- `ClaudeAgent.solve` after the loop (claude_agent.py lines 238-254):
one `get_patch` attempt (`patchTry` is its outcome; an exception is
caught and the patch replaced by `""`), Python-truthiness conversion to
`model_patch`, metrics finalization, and result construction. -/
def solve (cfg : AgentCfg) (clock : Nat → Rat) (oracle : Nat → OracleReply)
    (m0 : AgentMetrics) (patchTry : Except String PyStr) (now : Rat) : SolveOut :=
  let st := solveLoop cfg clock oracle m0
  let (patch, calls) : PyStr × Nat :=
    match patchTry with
    | .ok p => (p, 1)
    | .error _ => ([], 1)
  let model_patch := if patch ≠ [] then some patch else none
  let m := finalize st.metrics now model_patch st.exit_reason
  { result := { model_patch := model_patch, metrics := m, exit_reason := st.exit_reason }
    patch_calls := calls
    final_state := st }

/-! ## `agents/openai_codex_agent.py` — `_parse_output`

The parser runs `json.loads` on every line of the codex CLI's output.
Decoded JSON values are modelled by `JVal` (Python `None` and JSON
`null` coincide as `JVal.null`); a line on which `json.loads` raises is
modelled as `none`. -/

/-- A decoded JSON value / the Python object it loads to. -/
inductive JVal
  | null
  | bool (b : Bool)
  | num (n : Int)
  | str (s : String)
  | arr (xs : List JVal)
  | obj (fields : List (String × JVal))

/-- Python truthiness of a decoded JSON value. -/
def truthy : JVal → Bool
  | .null => false
  | .bool b => b
  | .num n => n != 0
  | .str s => s ≠ ""
  | .arr xs => !xs.isEmpty
  | .obj fs => !fs.isEmpty

/-- Python `v.get(k)`: defined only on dicts (anything else raises
`AttributeError`, modelled as `Except.error`); a missing key yields
`None`. -/
def jget (v : JVal) (k : String) : Except Unit JVal :=
  match v with
  | .obj fs => .ok ((fs.lookup k).getD .null)
  | _ => .error ()

/-- Python `v.get(k, d)` with a default. -/
def jgetD (v : JVal) (k : String) (d : JVal) : Except Unit JVal :=
  match v with
  | .obj fs => .ok ((fs.lookup k).getD d)
  | _ => .error ()

/-- Python `v == "s"` for a string literal `"s"`. -/
def isStr (v : JVal) (s : String) : Bool :=
  match v with
  | .str t => t = s
  | _ => false

/-- The first condition of the per-line branch
(`j.get("item") and j.get("item").get("type") == "reasoning"`,
openai_codex_agent.py line 157), with Python short-circuiting and
exception propagation. -/
def evalCond1 (j : JVal) : Except Unit Bool :=
  match jget j "item" with
  | .error e => .error e
  | .ok item =>
    if truthy item then
      match jget item "type" with
      | .error e => .error e
      | .ok t => .ok (isStr t "reasoning")
    else .ok false

/-- The `elif` condition (`j.get("type", "") == "item.started" and
j.get("item") and j.get("item").get("type") == "reasoning"`,
openai_codex_agent.py line 159). -/
def evalCond2 (j : JVal) : Except Unit Bool :=
  match jgetD j "type" (.str "") with
  | .error e => .error e
  | .ok t =>
    if isStr t "item.started" then
      match jget j "item" with
      | .error e => .error e
      | .ok item =>
        if truthy item then
          match jget item "type" with
          | .error e => .error e
          | .ok ty => .ok (isStr ty "reasoning")
        else .ok false
    else .ok false

/-- Counter increments `(reasoning, execution)` contributed by one
line; any exception is swallowed by the surrounding
`except Exception: pass`, discarding the line's increments. -/
def lineStep (j : JVal) : Nat × Nat :=
  match evalCond1 j with
  | .error _ => (0, 0)
  | .ok true => (1, 0)
  | .ok false =>
    match evalCond2 j with
    | .error _ => (0, 0)
    | .ok true => (0, 1)
    | .ok false => (0, 0)

/-- The fold step over the per-line `json.loads` outcomes: a line on
which `json.loads` raised contributes nothing. -/
def lineFold (acc : Nat × Nat) (ol : Option JVal) : Nat × Nat :=
  match ol with
  | none => acc
  | some j => (acc.1 + (lineStep j).1, acc.2 + (lineStep j).2)

/-- The token extraction from the last-but-one line
(`j.get("usage").get("input_tokens")` / `.get("output_tokens")`,
openai_codex_agent.py lines 168-173): an `AttributeError` anywhere in the
chain is caught and both counters keep their initial Python value `0`. -/
def extractTokens (j : JVal) : JVal × JVal :=
  match jget j "usage" with
  | .error _ => (.num 0, .num 0)
  | .ok u =>
    match jget u "input_tokens", jget u "output_tokens" with
    | .ok it, .ok ot => (it, ot)
    | _, _ => (.num 0, .num 0)

/-- `OpenAICodexAgent._parse_output` (openai_codex_agent.py lines
148-175) over the list of per-line `json.loads` outcomes.  The
token-extraction step reads `lines[-2]`, which raises `IndexError`
(modelled as `Except.error`) when fewer than two lines exist.  Returns
`(num_reasoning_steps, num_execution_steps, input_tokens,
output_tokens)` with the token fields kept as the raw Python objects
they are assigned. -/
def parse_output (lines : List (Option JVal)) : Except Unit (Nat × Nat × JVal × JVal) :=
  let counts := lines.foldl lineFold (0, 0)
  if h : 2 ≤ lines.length then
    let toks : JVal × JVal :=
      match lines.get ⟨lines.length - 2, by omega⟩ with
      | none => (.num 0, .num 0)
      | some j => extractTokens j
    .ok (counts.1, counts.2, toks.1, toks.2)
  else
    .error ()

/-! ## Further definitions used in the statements and witnesses -/

/-- Whether a decoded line increments the reasoning counter. -/
def reasonLine (ol : Option JVal) : Bool :=
  match ol with
  | none => false
  | some j =>
    match evalCond1 j with
    | .ok true => true
    | _ => false

/-- The text `get_patch` returns for a working-tree diff longer than the
output ceiling: the diff's first and last `MAX_OUTPUT_BYTES / 2` characters
joined by the truncation marker, finally passed through `str.strip()`. -/
def truncatedPatch (diff : PyStr) : PyStr :=
  pyStrip (diff.take (MAX_OUTPUT_BYTES / 2) ++ truncMarker diff.length
    ++ pyTakeLast diff (MAX_OUTPUT_BYTES / 2))

/-- A concrete over-the-ceiling output for the C3 witness. -/
def bigOut : PyStr := List.replicate 102401 'a'

/-- A concrete 110000-character working-tree diff for the C10 witness. -/
def bigDiff : PyStr := List.replicate 110000 'a'

/-- Concrete codex CLI output lines for the C9 witness: one reasoning item
line followed by one non-JSON-object line. -/
def exLines : List (Option JVal) :=
  [some (JVal.obj [("item", JVal.obj [("type", JVal.str "reasoning")])]),
   some JVal.null]

/-- Concrete configuration for the loop witnesses: 2 iterations allowed,
generous wall-clock budget, unlimited tokens. -/
def exCfg : AgentCfg := { max_iterations := 2, agent_timeout := 100, max_token_budget := 0 }

/-- Concrete elapsed-time readings for the loop witnesses. -/
def exClock : Nat → Rat := fun _ => 1

/-- A concrete non-terminal oracle response: one `execute_command` call. -/
def exResp : OracleResponse :=
  { input_tokens := 3, output_tokens := 4, stop_reason := "tool_use",
    content := [Block.toolUse "execute_command" false] }

/-- An oracle that always requests one more command. -/
def exOracle : Nat → OracleReply := fun _ => .ok exResp

/-! ## Helper lemmas on the string models -/

theorem dropWhile_eq_self_of_all {p : Char → Bool} {l : PyStr}
    (h : ∀ c ∈ l, p c = false) : l.dropWhile p = l := by
  cases l with
  | nil => rfl
  | cons a t => simp [List.dropWhile_cons, h a (by simp)]

theorem mem_dropWhile_of_not {p : Char → Bool} {l : PyStr} {c : Char}
    (hc : c ∈ l) (hp : p c = false) : c ∈ l.dropWhile p := by
  induction l with
  | nil => cases hc
  | cons a t ih =>
    rw [List.dropWhile_cons]
    by_cases ha : p a = true
    · simp only [ha, if_true]
      rcases List.mem_cons.1 hc with rfl | hmem
      · rw [hp] at ha; cases ha
      · exact ih hmem
    · simp only [ha, if_false]
      exact hc

theorem pyStripChars_eq_self {p : Char → Bool} {l : PyStr}
    (h : ∀ c ∈ l, p c = false) : pyStripChars p l = l := by
  unfold pyStripChars
  rw [dropWhile_eq_self_of_all h]
  rw [dropWhile_eq_self_of_all (fun c hc => h c (List.mem_reverse.1 hc))]
  exact List.reverse_reverse l

theorem pyStripChars_ne_nil {p : Char → Bool} {l : PyStr} {c : Char}
    (hc : c ∈ l) (hp : p c = false) : pyStripChars p l ≠ [] := by
  unfold pyStripChars
  intro hnil
  rw [List.reverse_eq_nil_iff, List.dropWhile_eq_nil_iff] at hnil
  have h1 : c ∈ (l.dropWhile p).reverse :=
    List.mem_reverse.2 (mem_dropWhile_of_not hc hp)
  have := hnil c h1
  rw [hp] at this
  cases this

theorem length_dropWhile_le (p : Char → Bool) (l : PyStr) :
    (l.dropWhile p).length ≤ l.length := by
  induction l with
  | nil => simp
  | cons a t ih =>
    rw [List.dropWhile_cons]
    by_cases ha : p a = true
    · simp only [ha, if_true]; exact Nat.le_succ_of_le ih
    · simp [ha]

theorem pyStripChars_length_le (p : Char → Bool) (l : PyStr) :
    (pyStripChars p l).length ≤ l.length := by
  unfold pyStripChars
  rw [List.length_reverse]
  calc ((l.dropWhile p).reverse.dropWhile p).length
      ≤ (l.dropWhile p).reverse.length := length_dropWhile_le ..
    _ = (l.dropWhile p).length := List.length_reverse ..
    _ ≤ l.length := length_dropWhile_le ..

theorem dropWhile_append_of_all {p : Char → Bool} {A : PyStr} (B : PyStr)
    (h : ∀ a ∈ A, p a = true) : (A ++ B).dropWhile p = B.dropWhile p := by
  induction A with
  | nil => rfl
  | cons a t ih =>
    rw [List.cons_append, List.dropWhile_cons]
    simp only [h a (by simp), if_true]
    exact ih (fun x hx => h x (by simp [hx]))

theorem pyRstripNl_append_nl {X nls : PyStr} (h : ∀ c ∈ nls, c = '\n') :
    pyRstripNl (X ++ nls) = pyRstripNl X := by
  unfold pyRstripNl
  rw [List.reverse_append]
  rw [dropWhile_append_of_all X.reverse
    (fun a ha => by rw [h a (List.mem_reverse.1 ha)]; rfl)]

theorem pyRstripNl_concat_of_ne {X : PyStr} {d : Char} (h : d ≠ '\n') :
    pyRstripNl (X ++ [d]) = X ++ [d] := by
  unfold pyRstripNl
  rw [List.reverse_concat, List.dropWhile_cons]
  simp only [beq_iff_eq, h, if_false, ite_false]
  rw [← List.reverse_concat]
  exact List.reverse_reverse _

theorem pySplitNl_cons (c : Char) (rest : PyStr) :
    pySplitNl (c :: rest) =
      match pySplitNl rest with
      | [] => [[]]
      | l :: ls => if c = '\n' then [] :: l :: ls else (c :: l) :: ls := rfl

theorem pySplitNl_ne_nil (l : PyStr) : pySplitNl l ≠ [] := by
  cases l with
  | nil => simp [pySplitNl]
  | cons c rest =>
    rw [pySplitNl]
    rcases h : pySplitNl rest with _ | ⟨x, xs⟩
    · simp
    · by_cases hc : c = '\n' <;> simp [hc]

theorem pySplitNl_no_nl {l : PyStr} (h : ∀ c ∈ l, c ≠ '\n') :
    pySplitNl l = [l] := by
  induction l with
  | nil => rfl
  | cons c rest ih =>
    rw [pySplitNl, ih (fun x hx => h x (by simp [hx]))]
    simp [h c (by simp)]

theorem pySplitNl_append {X Y : PyStr} (h : ∀ c ∈ Y, c ≠ '\n') :
    pySplitNl (X ++ '\n' :: Y) = pySplitNl X ++ [Y] := by
  induction X with
  | nil =>
    rw [List.nil_append, pySplitNl_cons, pySplitNl_no_nl h]
    simp [pySplitNl]
  | cons c rest ih =>
    rw [List.cons_append, pySplitNl_cons, ih, pySplitNl_cons]
    rcases hr : pySplitNl rest with _ | ⟨x, xs⟩
    · exact absurd hr (pySplitNl_ne_nil rest)
    · by_cases hc : c = '\n' <;> simp [hc]

theorem pyJoinNl_pySplitNl (l : PyStr) : pyJoinNl (pySplitNl l) = l := by
  induction l with
  | nil => rfl
  | cons c rest ih =>
    rw [pySplitNl_cons]
    rcases hr : pySplitNl rest with _ | ⟨x, xs⟩
    · exact absurd hr (pySplitNl_ne_nil rest)
    · rw [hr] at ih
      by_cases hc : c = '\n'
      · subst hc
        simp only [if_true, reduceIte]
        rw [pyJoinNl, ih]
        simp
      · simp only [hc, if_false, ite_false]
        cases xs with
        | nil => rw [pyJoinNl] at ih ⊢; rw [ih]
        | cons y ys =>
          rw [pyJoinNl] at ih ⊢
          rw [List.cons_append, ih]

/-! ## Digit-character facts and `pyParseInt` on digit strings -/

theorem digit_cases {c : Char} (h : c ∈ digitChars) :
    c = '0' ∨ c = '1' ∨ c = '2' ∨ c = '3' ∨ c = '4' ∨
    c = '5' ∨ c = '6' ∨ c = '7' ∨ c = '8' ∨ c = '9' := by
  simpa [digitChars] using h

theorem digit_isDigit {c : Char} (h : c ∈ digitChars) : c.isDigit = true := by
  rcases digit_cases h with rfl|rfl|rfl|rfl|rfl|rfl|rfl|rfl|rfl|rfl <;> decide

theorem digit_not_space {c : Char} (h : c ∈ digitChars) : pyIsSpace c = false := by
  rcases digit_cases h with rfl|rfl|rfl|rfl|rfl|rfl|rfl|rfl|rfl|rfl <;> decide

theorem digit_ne_nl {c : Char} (h : c ∈ digitChars) : c ≠ '\n' := by
  rcases digit_cases h with rfl|rfl|rfl|rfl|rfl|rfl|rfl|rfl|rfl|rfl <;> decide

theorem digit_ne_sign {c : Char} (h : c ∈ digitChars) : c ≠ '-' ∧ c ≠ '+' := by
  rcases digit_cases h with rfl|rfl|rfl|rfl|rfl|rfl|rfl|rfl|rfl|rfl <;> exact ⟨by decide, by decide⟩

theorem pyParseInt_digits {ds : PyStr} (hne : ds ≠ [])
    (hdig : ∀ c ∈ ds, c ∈ digitChars) :
    pyParseInt ds = some (Int.ofNat (digitsVal ds)) := by
  have hstrip : pyStripChars pyIsSpace ds = ds :=
    pyStripChars_eq_self (fun c hc => digit_not_space (hdig c hc))
  unfold pyParseInt
  rw [hstrip]
  cases ds with
  | nil => exact absurd rfl hne
  | cons d rest =>
    have hd := digit_ne_sign (hdig d (by simp))
    dsimp only
    rw [if_neg hd.1, if_neg hd.2]
    have hall : (d :: rest).all Char.isDigit = true :=
      List.all_eq_true.2 (fun c hc => digit_isDigit (hdig c hc))
    unfold digitsToNat
    rw [if_pos ⟨by simp, hall⟩]
    rfl

/-! ## The sentinel-parsing lemma for `parseExit` -/

theorem sentinelTag_no_nl : ∀ c ∈ sentinelTag, c ≠ '\n' := by decide

theorem isPrefixOf_append_self (p r : PyStr) : p.isPrefixOf (p ++ r) = true := by
  simp [List.isPrefixOf_iff_prefix]

/-- On output of the form `<body>\n SWEBENCH_EXIT:<digits> <newlines>` with
`timed_out = False`, `parseExit` recovers the digits' value as the exit
code and strips the sentinel line, leaving exactly `body`. -/
theorem parseExit_sentinel (body ds nls : PyStr)
    (hne : ds ≠ []) (hdig : ∀ c ∈ ds, c ∈ digitChars)
    (hnls : ∀ c ∈ nls, c = '\n') :
    parseExit (body ++ ('\n' :: (sentinelTag ++ ds)) ++ nls) false
      = (body, Int.ofNat (digitsVal ds)) := by
  rcases List.eq_nil_or_concat ds with rfl | ⟨ds', d, hds⟩
  · exact absurd rfl hne
  rw [List.concat_eq_append] at hds
  have hdmem : d ∈ ds := by rw [hds]; simp
  have h1 : pyRstripNl (body ++ ('\n' :: (sentinelTag ++ ds)) ++ nls)
      = body ++ '\n' :: (sentinelTag ++ ds) := by
    have e : body ++ ('\n' :: (sentinelTag ++ ds)) ++ nls
        = (body ++ '\n' :: (sentinelTag ++ ds)) ++ nls := by simp
    rw [e, pyRstripNl_append_nl hnls]
    have e2 : body ++ '\n' :: (sentinelTag ++ ds)
        = (body ++ '\n' :: (sentinelTag ++ ds')) ++ [d] := by rw [hds]; simp
    rw [e2, pyRstripNl_concat_of_ne (digit_ne_nl (hdig d hdmem))]
  have h2 : pySplitNl (body ++ '\n' :: (sentinelTag ++ ds))
      = pySplitNl body ++ [sentinelTag ++ ds] := by
    refine pySplitNl_append (fun c hc => ?_)
    rcases List.mem_append.1 hc with h | h
    · exact sentinelTag_no_nl c h
    · exact digit_ne_nl (hdig c h)
  have hlines_ne : pySplitNl body ++ [sentinelTag ++ ds] ≠ [] := by simp
  have hlast : (pySplitNl body ++ [sentinelTag ++ ds]).getLastD [] = sentinelTag ++ ds :=
    List.getLastD_concat ..
  have hdroplast : (pySplitNl body ++ [sentinelTag ++ ds]).dropLast = pySplitNl body :=
    List.dropLast_concat ..
  unfold parseExit
  rw [h1, h2]
  rw [if_pos ⟨rfl, hlines_ne⟩, hlast]
  rw [if_pos (isPrefixOf_append_self sentinelTag ds)]
  rw [show (sentinelTag ++ ds).drop sentinelTag.length = ds from List.drop_left ..]
  rw [pyParseInt_digits hne hdig, hdroplast, pyJoinNl_pySplitNl]

/-- With `timed_out = True`, or when the last line of the (newline-
stripped) output does not start with the sentinel tag, `parseExit`
leaves the output unchanged and the exit code at `-1`. -/
theorem parseExit_no_sentinel (out : PyStr) :
    parseExit out true = (out, -1)
  ∧ (sentinelTag.isPrefixOf ((pySplitNl (pyRstripNl out)).getLastD []) = false →
      parseExit out false = (out, -1)) := by
  constructor
  · unfold parseExit
    rw [if_neg]
    rintro ⟨h, -⟩
    cases h
  · intro h
    unfold parseExit
    rw [if_pos ⟨rfl, pySplitNl_ne_nil (pyRstripNl out)⟩]
    dsimp only
    split
    · next hpre => rw [h] at hpre; cases hpre
    · rfl

/-! ## Truncation lemmas -/

theorem truncateOutput_of_le {s : PyStr} (h : s.length ≤ MAX_OUTPUT_BYTES) :
    truncateOutput s = s := by
  unfold truncateOutput
  rw [if_neg (by omega)]

theorem truncateOutput_of_gt {s : PyStr} (h : s.length > MAX_OUTPUT_BYTES) :
    truncateOutput s = s.take (MAX_OUTPUT_BYTES / 2) ++ truncMarker s.length
      ++ pyTakeLast s (MAX_OUTPUT_BYTES / 2) := by
  unfold truncateOutput
  rw [if_pos h]

theorem length_take_half {s : PyStr} (h : s.length > MAX_OUTPUT_BYTES) :
    (s.take (MAX_OUTPUT_BYTES / 2)).length = MAX_OUTPUT_BYTES / 2 := by
  rw [List.length_take]
  omega

theorem length_pyTakeLast_half {s : PyStr} (h : s.length > MAX_OUTPUT_BYTES) :
    (pyTakeLast s (MAX_OUTPUT_BYTES / 2)).length = MAX_OUTPUT_BYTES / 2 := by
  unfold pyTakeLast
  rw [List.length_drop]
  omega

theorem length_truncateOutput_of_gt {s : PyStr} (h : s.length > MAX_OUTPUT_BYTES) :
    (truncateOutput s).length = MAX_OUTPUT_BYTES + (truncMarker s.length).length := by
  rw [truncateOutput_of_gt h]
  rw [List.length_append, List.length_append, length_take_half h,
    length_pyTakeLast_half h]
  have : MAX_OUTPUT_BYTES / 2 + MAX_OUTPUT_BYTES / 2 = MAX_OUTPUT_BYTES := by
    unfold MAX_OUTPUT_BYTES; omega
  omega

theorem take_len_append (A B : PyStr) (n : Nat) (h : A.length = n) :
    (A ++ B).take n = A := by
  subst h; exact List.take_left ..

theorem take_truncateOutput {s : PyStr} (h : s.length > MAX_OUTPUT_BYTES) :
    (truncateOutput s).take (MAX_OUTPUT_BYTES / 2) = s.take (MAX_OUTPUT_BYTES / 2) := by
  rw [truncateOutput_of_gt h, List.append_assoc]
  exact take_len_append _ _ _ (length_take_half h)

theorem pyTakeLast_truncateOutput {s : PyStr} (h : s.length > MAX_OUTPUT_BYTES) :
    pyTakeLast (truncateOutput s) (MAX_OUTPUT_BYTES / 2)
      = pyTakeLast s (MAX_OUTPUT_BYTES / 2) := by
  rw [truncateOutput_of_gt h]
  unfold pyTakeLast
  have h1 : (s.take (MAX_OUTPUT_BYTES / 2) ++ truncMarker s.length
      ++ s.drop (s.length - MAX_OUTPUT_BYTES / 2)).length - MAX_OUTPUT_BYTES / 2
      = (s.take (MAX_OUTPUT_BYTES / 2) ++ truncMarker s.length).length := by
    rw [List.length_append, List.length_drop]
    omega
  rw [h1]
  exact List.drop_left ..

/-! ## `execute` on a started session -/

theorem execute_true (ct : Int) (tmo : Option Int) (oc : ExecOutcome) :
    execute true ct tmo oc
      = .ok { output := (processOutput oc.output oc.timed_out).1
              exit_code := (processOutput oc.output oc.timed_out).2
              timed_out := oc.timed_out
              duration_seconds := oc.duration } := by
  unfold execute
  rw [if_neg (by simp)]

theorem processOutput_sentinel (body ds nls : PyStr)
    (hne : ds ≠ []) (hdig : ∀ c ∈ ds, c ∈ digitChars)
    (hnls : ∀ c ∈ nls, c = '\n') :
    processOutput (body ++ ('\n' :: (sentinelTag ++ ds)) ++ nls) false
      = (truncateOutput body, Int.ofNat (digitsVal ds)) := by
  unfold processOutput
  rw [parseExit_sentinel body ds nls hne hdig hnls]

theorem processOutput_timed_out (out : PyStr) :
    processOutput out true = (truncateOutput out, -1) := by
  unfold processOutput
  rw [(parseExit_no_sentinel out).1]

theorem processOutput_no_sentinel (out : PyStr)
    (h : sentinelTag.isPrefixOf ((pySplitNl (pyRstripNl out)).getLastD []) = false) :
    processOutput out false = (truncateOutput out, -1) := by
  unfold processOutput
  rw [(parseExit_no_sentinel out).2 h]

/-! ## Claim theorems -/

/-- C1: when the captured output of a non-timed-out command ends with the
injected sentinel line `SWEBENCH_EXIT:<digits>` (followed only by trailing
newlines), `execute` returns that digit string's value as `exit_code` and
strips the sentinel line from the returned output (which then only undergoes
the usual truncation); with `timed_out = true`, or when the last line does
not start with the sentinel tag, `exit_code` remains the sentinel value
`-1`. -/
theorem C1_sentinel_exit_code (body ds nls : PyStr) (ct : Int) (tmo : Option Int)
    (dur : Rat) (hne : ds ≠ []) (hdig : ∀ c ∈ ds, c ∈ digitChars)
    (hnls : ∀ c ∈ nls, c = '\n') :
    (execute true ct tmo ⟨body ++ ('\n' :: (sentinelTag ++ ds)) ++ nls, false, dur⟩
      = .ok { output := truncateOutput body
              exit_code := Int.ofNat (digitsVal ds)
              timed_out := false
              duration_seconds := dur })
  ∧ (∀ out : PyStr, execute true ct tmo ⟨out, true, dur⟩
      = .ok { output := truncateOutput out
              exit_code := -1
              timed_out := true
              duration_seconds := dur })
  ∧ (∀ out : PyStr,
      sentinelTag.isPrefixOf ((pySplitNl (pyRstripNl out)).getLastD []) = false →
      execute true ct tmo ⟨out, false, dur⟩
        = .ok { output := truncateOutput out
                exit_code := -1
                timed_out := false
                duration_seconds := dur }) := by
  refine ⟨?_, fun out => ?_, fun out h => ?_⟩
  · rw [execute_true]
    rw [show (⟨body ++ ('\n' :: (sentinelTag ++ ds)) ++ nls, false, dur⟩ : ExecOutcome).output
        = body ++ ('\n' :: (sentinelTag ++ ds)) ++ nls from rfl]
    rw [processOutput_sentinel body ds nls hne hdig hnls]
  · rw [execute_true]
    rw [show (⟨out, true, dur⟩ : ExecOutcome).output = out from rfl]
    rw [processOutput_timed_out]
  · rw [execute_true]
    rw [show (⟨out, false, dur⟩ : ExecOutcome).output = out from rfl]
    rw [processOutput_no_sentinel out h]

/-- Witness for C1 at a concrete sentinel line `SWEBENCH_EXIT:42` and a
concrete sentinel-free output. -/
theorem C1_witness :
    ("42".data ≠ [] ∧ (∀ c ∈ "42".data, c ∈ digitChars) ∧ (∀ c ∈ ['\n'], c = '\n'))
  ∧ execute true 120 none ⟨"hi".data ++ ('\n' :: (sentinelTag ++ "42".data)) ++ ['\n'], false, 1⟩
      = .ok { output := truncateOutput "hi".data
              exit_code := Int.ofNat (digitsVal "42".data)
              timed_out := false
              duration_seconds := 1 }
  ∧ execute true 120 none ⟨"killed".data, true, 1⟩
      = .ok { output := truncateOutput "killed".data
              exit_code := -1
              timed_out := true
              duration_seconds := 1 } := by
  have h1 : "42".data ≠ [] := by decide
  have h2 : ∀ c ∈ "42".data, c ∈ digitChars := by decide
  have h3 : ∀ c ∈ ['\n'], c = '\n' := by decide
  exact ⟨⟨h1, h2, h3⟩,
    (C1_sentinel_exit_code "hi".data "42".data ['\n'] 120 none 1 h1 h2 h3).1,
    (C1_sentinel_exit_code "hi".data "42".data ['\n'] 120 none 1 h1 h2 h3).2.1 "killed".data⟩

/-- C2: the effective timeout used by `execute` is the hard cap
`MAX_COMMAND_TIMEOUT` when the caller's value exceeds it, the session's
`command_timeout` when the caller's value is unset, zero or negative, and the
caller's value unchanged otherwise. -/
theorem C2_timeout_clamp (t ct : Int) :
    (t > MAX_COMMAND_TIMEOUT → effectiveTimeout (some t) ct = MAX_COMMAND_TIMEOUT)
  ∧ effectiveTimeout none ct = ct
  ∧ (t ≤ 0 → effectiveTimeout (some t) ct = ct)
  ∧ (0 < t → t ≤ MAX_COMMAND_TIMEOUT → effectiveTimeout (some t) ct = t) := by
  refine ⟨fun h => ?_, rfl, fun h => ?_, fun h1 h2 => ?_⟩
  · unfold effectiveTimeout MAX_COMMAND_TIMEOUT at *
    dsimp only
    rw [if_pos (by omega)]
    omega
  · unfold effectiveTimeout MAX_COMMAND_TIMEOUT at *
    dsimp only
    rw [if_neg (by omega)]
  · unfold effectiveTimeout MAX_COMMAND_TIMEOUT at *
    dsimp only
    rw [if_pos (by omega)]
    omega

/-- Witness for C2 at concrete timeouts 999999, unset, -5 and 30. -/
theorem C2_witness :
    ((999999 : Int) > MAX_COMMAND_TIMEOUT ∧
      effectiveTimeout (some 999999) 120 = MAX_COMMAND_TIMEOUT)
  ∧ effectiveTimeout none 120 = 120
  ∧ ((-5 : Int) ≤ 0 ∧ effectiveTimeout (some (-5)) 120 = 120)
  ∧ ((0 : Int) < 30 ∧ (30 : Int) ≤ MAX_COMMAND_TIMEOUT ∧
      effectiveTimeout (some 30) 120 = 30) :=
  ⟨⟨by decide, (C2_timeout_clamp 999999 120).1 (by decide)⟩,
   (C2_timeout_clamp 0 120).2.1,
   ⟨by decide, (C2_timeout_clamp (-5) 120).2.2.1 (by decide)⟩,
   ⟨by decide, by decide, (C2_timeout_clamp 30 120).2.2.2 (by decide) (by decide)⟩⟩

/-- C3: output longer than `MAX_OUTPUT_BYTES` is truncated to the first and
last `MAX_OUTPUT_BYTES / 2` characters of the original joined by the marker
(which states the original total length), so the result's length is exactly
`MAX_OUTPUT_BYTES` plus the marker's length; output within the ceiling is
returned unchanged. -/
theorem C3_truncation (s : PyStr) :
    (s.length > MAX_OUTPUT_BYTES →
        truncateOutput s = s.take (MAX_OUTPUT_BYTES / 2) ++ truncMarker s.length
          ++ pyTakeLast s (MAX_OUTPUT_BYTES / 2)
      ∧ (truncateOutput s).take (MAX_OUTPUT_BYTES / 2) = s.take (MAX_OUTPUT_BYTES / 2)
      ∧ pyTakeLast (truncateOutput s) (MAX_OUTPUT_BYTES / 2)
          = pyTakeLast s (MAX_OUTPUT_BYTES / 2)
      ∧ (truncateOutput s).length = MAX_OUTPUT_BYTES + (truncMarker s.length).length)
  ∧ (s.length ≤ MAX_OUTPUT_BYTES → truncateOutput s = s) :=
  ⟨fun h => ⟨truncateOutput_of_gt h, take_truncateOutput h,
    pyTakeLast_truncateOutput h, length_truncateOutput_of_gt h⟩,
   fun h => truncateOutput_of_le h⟩

/-- Witness for C3 at a 102401-character output and a 5-character output. -/
theorem C3_witness :
    bigOut.length > MAX_OUTPUT_BYTES
  ∧ (truncateOutput bigOut).length = MAX_OUTPUT_BYTES + (truncMarker bigOut.length).length
  ∧ (truncateOutput bigOut).take (MAX_OUTPUT_BYTES / 2) = bigOut.take (MAX_OUTPUT_BYTES / 2)
  ∧ (List.replicate 5 'b').length ≤ MAX_OUTPUT_BYTES
  ∧ truncateOutput (List.replicate 5 'b') = List.replicate 5 'b' := by
  have h1 : bigOut.length > MAX_OUTPUT_BYTES := by
    simp only [bigOut, List.length_replicate]
    decide
  have h2 : (List.replicate 5 'b').length ≤ MAX_OUTPUT_BYTES := by
    simp only [List.length_replicate]
    decide
  exact ⟨h1, ((C3_truncation bigOut).1 h1).2.2.2, ((C3_truncation bigOut).1 h1).2.1,
    h2, (C3_truncation (List.replicate 5 'b')).2 h2⟩

/-- C6: on a started session, `execute` returns a `CommandResult` for every
outcome of the underlying exec call — a non-zero exit code is not an
exception, and a command timeout surfaces only as `timed_out = true` in the
result. -/
theorem C6_no_raise (ct : Int) (tmo : Option Int) (oc : ExecOutcome) :
    ∃ r : CommandResult, execute true ct tmo oc = .ok r ∧ r.timed_out = oc.timed_out :=
  ⟨_, execute_true ct tmo oc, rfl⟩

/-- C7: after `finalize`, `total_tokens = input_tokens + output_tokens`;
`patch_produced` holds iff the patch is non-`None` and nonempty;
`patch_size_bytes` is the UTF-8 byte length of the patch (0 for `None` or
empty); and a second `finalize` with the same arguments yields the same
`patch_produced` and `patch_size_bytes`. -/
theorem C7_finalize (m : AgentMetrics) (now now2 : Rat) (patch : Option PyStr)
    (er : String) :
    (finalize m now patch er).total_tokens = m.input_tokens + m.output_tokens
  ∧ ((finalize m now patch er).patch_produced = true ↔ ∃ p, patch = some p ∧ p ≠ [])
  ∧ (∀ p, patch = some p → p ≠ [] →
      (finalize m now patch er).patch_size_bytes = utf8Len p)
  ∧ (patch = none ∨ patch = some [] → (finalize m now patch er).patch_size_bytes = 0)
  ∧ (finalize (finalize m now patch er) now2 patch er).patch_produced
      = (finalize m now patch er).patch_produced
  ∧ (finalize (finalize m now patch er) now2 patch er).patch_size_bytes
      = (finalize m now patch er).patch_size_bytes := by
  rcases patch with _ | p
  · simp [finalize]
  · by_cases hp : p = []
    · subst hp
      simp [finalize]
    · simp [finalize, hp]

/-- Witness for C7 at a one-character patch on fresh metrics. -/
theorem C7_witness :
    (finalize {} 5 (some ['a']) "completed").total_tokens
      = ({} : AgentMetrics).input_tokens + ({} : AgentMetrics).output_tokens
  ∧ (finalize {} 5 (some ['a']) "completed").patch_size_bytes = utf8Len ['a']
  ∧ ((finalize {} 5 (some ['a']) "completed").patch_produced = true ↔
      ∃ p, (some ['a'] : Option PyStr) = some p ∧ p ≠ [])
  ∧ (finalize (finalize {} 5 (some ['a']) "completed") 7 (some ['a']) "completed").patch_size_bytes
      = (finalize {} 5 (some ['a']) "completed").patch_size_bytes :=
  ⟨(C7_finalize {} 5 7 (some ['a']) "completed").1,
   (C7_finalize {} 5 7 (some ['a']) "completed").2.2.1 ['a'] rfl (by decide),
   (C7_finalize {} 5 7 (some ['a']) "completed").2.1,
   (C7_finalize {} 5 7 (some ['a']) "completed").2.2.2.2.2⟩

/-! ## `_parse_output`: the execution-step counter is dead -/

theorem cond2_imp_cond1 (j : JVal) (h : evalCond2 j = .ok true) :
    evalCond1 j = .ok true := by
  cases j with
  | obj fs =>
    unfold evalCond2 at h
    unfold evalCond1
    dsimp only [jgetD, jget] at h ⊢
    by_cases ht : isStr ((fs.lookup "type").getD (.str "")) "item.started" = true
    · rw [if_pos ht] at h
      by_cases htr : truthy ((fs.lookup "item").getD .null) = true
      · rw [if_pos htr] at h
        rw [if_pos htr]
        cases hitem : (fs.lookup "item").getD JVal.null with
        | obj gs => rw [hitem] at h; exact h
        | null => rw [hitem] at h; simp at h
        | bool b => rw [hitem] at h; simp at h
        | num n => rw [hitem] at h; simp at h
        | str s => rw [hitem] at h; simp at h
        | arr xs => rw [hitem] at h; simp at h
      · rw [if_neg htr] at h
        cases h
    · rw [if_neg ht] at h
      cases h
  | null => cases h
  | bool b => cases h
  | num n => cases h
  | str s => cases h
  | arr xs => cases h

theorem lineStep_exec_zero (j : JVal) : (lineStep j).2 = 0 := by
  unfold lineStep
  cases h1 : evalCond1 j with
  | error e => rfl
  | ok b =>
    cases b with
    | true => rfl
    | false =>
      cases h2 : evalCond2 j with
      | error e => rfl
      | ok b2 =>
        cases b2 with
        | false => rfl
        | true =>
          rw [cond2_imp_cond1 j h2] at h1
          cases h1

theorem lineStep_reason (j : JVal) :
    (lineStep j).1 = if reasonLine (some j) = true then 1 else 0 := by
  unfold lineStep reasonLine
  cases h1 : evalCond1 j with
  | error e => simp [h1]
  | ok b =>
    cases b with
    | true => simp [h1]
    | false =>
      cases h2 : evalCond2 j with
      | error e => simp [h1]
      | ok b2 => cases b2 <;> simp [h1]

theorem foldl_lineFold_exec (lines : List (Option JVal)) :
    ∀ acc : Nat × Nat, (lines.foldl lineFold acc).2 = acc.2 := by
  induction lines with
  | nil => intro acc; rfl
  | cons ol rest ih =>
    intro acc
    rw [List.foldl_cons, ih]
    cases ol with
    | none => rfl
    | some j => simp [lineFold, lineStep_exec_zero j]

theorem foldl_lineFold_reason (lines : List (Option JVal)) :
    ∀ acc : Nat × Nat,
      (lines.foldl lineFold acc).1 = acc.1 + lines.countP reasonLine := by
  induction lines with
  | nil => intro acc; simp
  | cons ol rest ih =>
    intro acc
    rw [List.foldl_cons, ih, List.countP_cons]
    cases ol with
    | none => simp [lineFold, reasonLine]
    | some j =>
      simp only [lineFold, lineStep_reason j]
      by_cases hr : reasonLine (some j) = true
      · simp [hr]
        omega
      · simp only [hr, if_false]
        simp at hr
        simp [hr]

/-- C9: in `_parse_output`, the reasoning-step counter counts exactly the
lines whose decoded `item.type` is `"reasoning"`, while the execution-step
branch sits under an `elif` that also requires `item.type == "reasoning"` and
is therefore unreachable: whenever `_parse_output` returns,
`num_execution_steps` is `0`. -/
theorem C9_execution_steps_dead (lines : List (Option JVal))
    (r : Nat × Nat × JVal × JVal) (h : parse_output lines = .ok r) :
    r.2.1 = 0 ∧ r.1 = lines.countP reasonLine := by
  unfold parse_output at h
  by_cases hl : 2 ≤ lines.length
  · rw [dif_pos hl] at h
    have h' := Except.ok.inj h
    rw [← h']
    refine ⟨foldl_lineFold_exec lines (0, 0), ?_⟩
    simpa using foldl_lineFold_reason lines (0, 0)
  · rw [dif_neg hl] at h
    cases h

/-- Witness for C9 at `exLines`: the parser returns, its execution-step
count is `0`, and its reasoning count is the number of reasoning lines. -/
theorem C9_witness :
    parse_output exLines = .ok (1, 0, JVal.num 0, JVal.num 0)
  ∧ ((1 : Nat), (0 : Nat), JVal.num 0, JVal.num 0).2.1 = 0
  ∧ ((1 : Nat), (0 : Nat), JVal.num 0, JVal.num 0).1 = exLines.countP reasonLine :=
  ⟨rfl,
   (C9_execution_steps_dead exLines (1, 0, JVal.num 0, JVal.num 0) rfl).1,
   (C9_execution_steps_dead exLines (1, 0, JVal.num 0, JVal.num 0) rfl).2⟩

/-! ## Control-loop lemmas -/

theorem procBlock_oracle_calls (acc : LoopSt × Bool × Nat) (b : Block) :
    ((procBlock acc b).1).oracle_calls = acc.1.oracle_calls := by
  rcases acc with ⟨st, brk, nres⟩
  cases b with
  | text s => rfl
  | toolUse name t =>
    unfold procBlock
    by_cases h1 : name = "execute_command"
    · simp [h1]
    · by_cases h2 : name = "submit_patch"
      · simp [h1, h2]
      · by_cases h3 : name = "give_up"
        · simp [h1, h2, h3]
        · simp [h1, h2, h3]

theorem foldl_procBlock_oracle_calls (blocks : List Block) :
    ∀ acc : LoopSt × Bool × Nat,
      ((blocks.foldl procBlock acc).1).oracle_calls = acc.1.oracle_calls := by
  induction blocks with
  | nil => intro acc; rfl
  | cons b bs ih =>
    intro acc
    rw [List.foldl_cons, ih, procBlock_oracle_calls]

theorem processBlocks_oracle_calls (blocks : List Block) (st : LoopSt) :
    ((processBlocks blocks st).1).oracle_calls = st.oracle_calls :=
  foldl_procBlock_oracle_calls blocks (st, false, 0)

theorem procBlock_no_terminal {b : Block} (hb : terminalBlock b = false)
    (acc : LoopSt × Bool × Nat) :
    ((procBlock acc b).1).exit_reason = acc.1.exit_reason
  ∧ (procBlock acc b).2.1 = acc.2.1 := by
  rcases acc with ⟨st, brk, nres⟩
  cases b with
  | text s => exact ⟨rfl, rfl⟩
  | toolUse name t =>
    unfold terminalBlock at hb
    simp only [Bool.or_eq_false_iff, decide_eq_false_iff_not] at hb
    unfold procBlock
    by_cases h1 : name = "execute_command"
    · simp [h1]
    · simp [h1, hb.1, hb.2]

theorem foldl_procBlock_no_terminal {blocks : List Block}
    (hb : ∀ b ∈ blocks, terminalBlock b = false) :
    ∀ acc : LoopSt × Bool × Nat,
      ((blocks.foldl procBlock acc).1).exit_reason = acc.1.exit_reason
    ∧ (blocks.foldl procBlock acc).2.1 = acc.2.1 := by
  induction blocks with
  | nil => intro acc; exact ⟨rfl, rfl⟩
  | cons b bs ih =>
    intro acc
    rw [List.foldl_cons]
    have h1 := procBlock_no_terminal (hb b (by simp)) acc
    have h2 := ih (fun x hx => hb x (by simp [hx])) (procBlock acc b)
    exact ⟨h2.1.trans h1.1, h2.2.trans h1.2⟩

theorem processBlocks_no_terminal {blocks : List Block}
    (hb : ∀ b ∈ blocks, terminalBlock b = false) (st : LoopSt) :
    ((processBlocks blocks st).1).exit_reason = st.exit_reason
  ∧ (processBlocks blocks st).2.1 = false :=
  foldl_procBlock_no_terminal hb (st, false, 0)

theorem iterStep_oracle_calls (cfg : AgentCfg) (clock : Nat → Rat)
    (oracle : Nat → OracleReply) (i : Nat) (st : LoopSt) :
    (∀ stop, iterStep cfg clock oracle i st = .inl stop →
      stop.oracle_calls ≤ st.oracle_calls + 1)
  ∧ (∀ next, iterStep cfg clock oracle i st = .inr next →
      next.oracle_calls = st.oracle_calls + 1) := by
  unfold iterStep
  by_cases hc : clock i > cfg.agent_timeout
  · rw [if_pos hc]
    constructor
    · rintro stop h
      cases h
      simp
    · rintro next h
      cases h
  · rw [if_neg hc]
    dsimp only
    cases ho : oracle i with
    | err =>
      constructor
      · rintro stop h
        cases h
        simp
      · rintro next h
        cases h
    | ok r =>
      dsimp only
      by_cases hbud : cfg.max_token_budget > 0 ∧
          st.metrics.input_tokens + r.input_tokens +
            (st.metrics.output_tokens + r.output_tokens) ≥ cfg.max_token_budget
      · rw [if_pos hbud]
        constructor
        · rintro stop h
          cases h
          simp
        · rintro next h
          cases h
      · rw [if_neg hbud]
        by_cases hstop : r.stop_reason ≠ "tool_use"
        · rw [if_pos hstop]
          constructor
          · rintro stop h
            cases h
            simp
          · rintro next h
            cases h
        · rw [if_neg hstop]
          rcases hpb : processBlocks r.content
              { st with
                oracle_calls := st.oracle_calls + 1
                metrics := { st.metrics with
                  iterations := i
                  input_tokens := st.metrics.input_tokens + r.input_tokens
                  output_tokens := st.metrics.output_tokens + r.output_tokens }
                messages := st.messages + 1 } with ⟨st2, brk, nres⟩
          have hoc : st2.oracle_calls = st.oracle_calls + 1 := by
            have := processBlocks_oracle_calls r.content
              { st with
                oracle_calls := st.oracle_calls + 1
                metrics := { st.metrics with
                  iterations := i
                  input_tokens := st.metrics.input_tokens + r.input_tokens
                  output_tokens := st.metrics.output_tokens + r.output_tokens }
                messages := st.messages + 1 }
            rw [hpb] at this
            exact this
          dsimp only
          cases brk
          · rw [if_neg (by simp : ¬(false = true))]
            constructor
            · rintro stop h
              cases h
            · rintro next h
              cases h
              by_cases hn : nres > 0
              · rw [if_pos hn]
                exact hoc
              · rw [if_neg hn]
                exact hoc
          · rw [if_pos rfl]
            constructor
            · rintro stop h
              cases h
              by_cases hn : nres > 0
              · rw [if_pos hn]
                exact Nat.le_of_eq hoc
              · rw [if_neg hn]
                exact Nat.le_of_eq hoc
            · rintro next h
              cases h

theorem solveIter_zero (cfg : AgentCfg) (clock : Nat → Rat)
    (oracle : Nat → OracleReply) (i : Nat) (st : LoopSt) :
    solveIter cfg clock oracle 0 i st = st := rfl

theorem solveIter_succ (cfg : AgentCfg) (clock : Nat → Rat)
    (oracle : Nat → OracleReply) (fuel i : Nat) (st : LoopSt) :
    solveIter cfg clock oracle (fuel + 1) i st
      = match iterStep cfg clock oracle i st with
        | .inl stop => stop
        | .inr next => solveIter cfg clock oracle fuel (i + 1) next := rfl

theorem solveIter_oracle_le (cfg : AgentCfg) (clock : Nat → Rat)
    (oracle : Nat → OracleReply) :
    ∀ (fuel i : Nat) (st : LoopSt),
      (solveIter cfg clock oracle fuel i st).oracle_calls ≤ st.oracle_calls + fuel := by
  intro fuel
  induction fuel with
  | zero =>
    intro i st
    rw [solveIter_zero]
    omega
  | succ n ih =>
    intro i st
    rw [solveIter_succ]
    cases hs : iterStep cfg clock oracle i st with
    | inl stop =>
      have h1 := (iterStep_oracle_calls cfg clock oracle i st).1 stop hs
      dsimp only
      omega
    | inr next =>
      have h1 := (iterStep_oracle_calls cfg clock oracle i st).2 next hs
      have h2 := ih (i + 1) next
      dsimp only
      omega

theorem iterStep_nonterminal (cfg : AgentCfg) (clock : Nat → Rat)
    (oracle : Nat → OracleReply) (i : Nat) (st : LoopSt)
    (hb : cfg.max_token_budget = 0)
    (hc : clock i ≤ cfg.agent_timeout)
    (r : OracleResponse) (hor : oracle i = .ok r)
    (hstop : r.stop_reason = "tool_use")
    (hterm : ∀ b ∈ r.content, terminalBlock b = false) :
    ∃ next, iterStep cfg clock oracle i st = .inr next
      ∧ next.exit_reason = st.exit_reason := by
  unfold iterStep
  rw [if_neg (not_lt.2 hc)]
  dsimp only
  rw [hor]
  dsimp only
  rw [if_neg (by simp [hb])]
  rw [if_neg (by simp [hstop])]
  have hnt := processBlocks_no_terminal hterm
    { st with
      oracle_calls := st.oracle_calls + 1
      metrics := { st.metrics with
        iterations := i
        input_tokens := st.metrics.input_tokens + r.input_tokens
        output_tokens := st.metrics.output_tokens + r.output_tokens }
      messages := st.messages + 1 }
  rcases hpb : processBlocks r.content
      { st with
        oracle_calls := st.oracle_calls + 1
        metrics := { st.metrics with
          iterations := i
          input_tokens := st.metrics.input_tokens + r.input_tokens
          output_tokens := st.metrics.output_tokens + r.output_tokens }
        messages := st.messages + 1 } with ⟨st2, brk, nres⟩
  rw [hpb] at hnt
  dsimp only at hnt
  obtain ⟨her, hbrk⟩ := hnt
  subst hbrk
  dsimp only
  rw [if_neg (by simp : ¬(false = true))]
  refine ⟨_, rfl, ?_⟩
  by_cases hn : nres > 0
  · rw [if_pos hn]
    exact her
  · rw [if_neg hn]
    exact her

theorem solveIter_nonterminal (cfg : AgentCfg) (clock : Nat → Rat)
    (oracle : Nat → OracleReply)
    (hb : cfg.max_token_budget = 0)
    (hc : ∀ j, clock j ≤ cfg.agent_timeout)
    (ho : ∀ j, ∃ r, oracle j = OracleReply.ok r ∧ r.stop_reason = "tool_use" ∧
        ∀ b ∈ r.content, terminalBlock b = false) :
    ∀ (fuel i : Nat) (st : LoopSt),
      (solveIter cfg clock oracle fuel i st).exit_reason = st.exit_reason := by
  intro fuel
  induction fuel with
  | zero =>
    intro i st
    rw [solveIter_zero]
  | succ n ih =>
    intro i st
    rw [solveIter_succ]
    obtain ⟨r, hor, hstop, hterm⟩ := ho i
    obtain ⟨next, hstep, hexit⟩ :=
      iterStep_nonterminal cfg clock oracle i st hb (hc i) r hor hstop hterm
    rw [hstep]
    dsimp only
    rw [ih (i + 1) next, hexit]

theorem finalize_iterations (m : AgentMetrics) (now : Rat) (p : Option PyStr)
    (er : String) : (finalize m now p er).iterations = m.iterations := by
  rcases p with _ | q
  · simp [finalize]
  · by_cases hq : q = [] <;> simp [finalize, hq]

/-- C4: the loop invokes the decision oracle at most `max_iterations` times,
and if every turn is non-terminal — no timeout, a successful `tool_use`
response with no `submit_patch`/`give_up` block, no token budget — the run
ends with `exit_reason = "max_iterations"`. -/
theorem C4_iteration_cap (cfg : AgentCfg) (clock : Nat → Rat)
    (oracle : Nat → OracleReply) (m0 : AgentMetrics) :
    (solveLoop cfg clock oracle m0).oracle_calls ≤ cfg.max_iterations
  ∧ (cfg.max_token_budget = 0 →
      (∀ j, clock j ≤ cfg.agent_timeout) →
      (∀ j, ∃ r, oracle j = OracleReply.ok r ∧ r.stop_reason = "tool_use" ∧
        ∀ b ∈ r.content, terminalBlock b = false) →
      (solveLoop cfg clock oracle m0).exit_reason = "max_iterations") := by
  constructor
  · have h := solveIter_oracle_le cfg clock oracle cfg.max_iterations 1 (initSt m0)
    simpa [solveLoop, initSt] using h
  · intro hb hc ho
    have h := solveIter_nonterminal cfg clock oracle hb hc ho cfg.max_iterations 1 (initSt m0)
    simpa [solveLoop, initSt] using h

/-- Witness for C4 at `exCfg`/`exClock`/`exOracle`. -/
theorem C4_witness :
    (solveLoop exCfg exClock exOracle {}).oracle_calls ≤ exCfg.max_iterations
  ∧ (solveLoop exCfg exClock exOracle {}).exit_reason = "max_iterations" := by
  refine ⟨(C4_iteration_cap exCfg exClock exOracle {}).1,
    (C4_iteration_cap exCfg exClock exOracle {}).2 rfl (fun j => ?_) (fun j => ⟨exResp, rfl, rfl, ?_⟩)⟩
  · show (1 : Rat) ≤ 100
    norm_num
  · intro b hb
    rw [show exResp.content = [Block.toolUse "execute_command" false] from rfl,
      List.mem_singleton] at hb
    subst hb
    decide

/-- C5: whatever terminated the loop, `solve` makes exactly one
`get_patch` attempt before producing its result, and a failing attempt is
swallowed: the patch becomes `None`, `patch_produced` is false, and the
result still carries the loop's exit reason. -/
theorem C5_patch_capture (cfg : AgentCfg) (clock : Nat → Rat)
    (oracle : Nat → OracleReply) (m0 : AgentMetrics)
    (patchTry : Except String PyStr) (now : Rat) :
    (solve cfg clock oracle m0 patchTry now).patch_calls = 1
  ∧ (∀ e, patchTry = .error e →
      (solve cfg clock oracle m0 patchTry now).result.model_patch = none
    ∧ (solve cfg clock oracle m0 patchTry now).result.metrics.patch_produced = false
    ∧ (solve cfg clock oracle m0 patchTry now).result.exit_reason
        = (solveLoop cfg clock oracle m0).exit_reason) := by
  constructor
  · unfold solve
    cases patchTry <;> rfl
  · rintro e rfl
    unfold solve
    dsimp only
    refine ⟨rfl, ?_, rfl⟩
    simp [finalize]

/-- Witness for C5 with a failing `get_patch`. -/
theorem C5_witness :
    (solve exCfg exClock exOracle {} (.error "boom") 9).patch_calls = 1
  ∧ (solve exCfg exClock exOracle {} (.error "boom") 9).result.model_patch = none
  ∧ (solve exCfg exClock exOracle {} (.error "boom") 9).result.metrics.patch_produced = false
  ∧ (solve exCfg exClock exOracle {} (.error "boom") 9).result.exit_reason
      = (solveLoop exCfg exClock exOracle {}).exit_reason :=
  ⟨(C5_patch_capture exCfg exClock exOracle {} (.error "boom") 9).1,
   ((C5_patch_capture exCfg exClock exOracle {} (.error "boom") 9).2 "boom" rfl).1,
   ((C5_patch_capture exCfg exClock exOracle {} (.error "boom") 9).2 "boom" rfl).2.1,
   ((C5_patch_capture exCfg exClock exOracle {} (.error "boom") 9).2 "boom" rfl).2.2⟩

/-- C8: with `agent_timeout = 0`, positive elapsed time at the first turn
boundary, at least one allowed iteration, and fresh metrics, the loop
terminates before any oracle call with `exit_reason = "timeout"` and
`iterations = 0`. -/
theorem C8_zero_timeout (cfg : AgentCfg) (clock : Nat → Rat)
    (oracle : Nat → OracleReply) (m0 : AgentMetrics)
    (patchTry : Except String PyStr) (now : Rat)
    (h0 : cfg.agent_timeout = 0) (hpos : 0 < clock 1)
    (hN : 1 ≤ cfg.max_iterations) (hm : m0.iterations = 0) :
    (solve cfg clock oracle m0 patchTry now).result.exit_reason = "timeout"
  ∧ (solve cfg clock oracle m0 patchTry now).result.metrics.iterations = 0
  ∧ (solve cfg clock oracle m0 patchTry now).final_state.oracle_calls = 0 := by
  obtain ⟨k, hk⟩ : ∃ k, cfg.max_iterations = k + 1 := ⟨cfg.max_iterations - 1, by omega⟩
  have hloop : solveLoop cfg clock oracle m0
      = { initSt m0 with exit_reason := "timeout" } := by
    unfold solveLoop
    rw [hk, solveIter_succ]
    have hstep : iterStep cfg clock oracle 1 (initSt m0)
        = .inl { initSt m0 with exit_reason := "timeout" } := by
      unfold iterStep
      rw [if_pos (by rw [h0]; exact hpos)]
    rw [hstep]
  unfold solve
  rw [hloop]
  cases patchTry with
  | ok p =>
    dsimp only
    refine ⟨rfl, ?_, rfl⟩
    rw [finalize_iterations]
    exact hm
  | error e =>
    dsimp only
    refine ⟨rfl, ?_, rfl⟩
    rw [finalize_iterations]
    exact hm

/-- Witness for C8: zero agent timeout, elapsed time 1 at turn 1. -/
theorem C8_witness :
    ((⟨2, 0, 0⟩ : AgentCfg).agent_timeout = 0 ∧ (0 : Rat) < exClock 1
      ∧ 1 ≤ (⟨2, 0, 0⟩ : AgentCfg).max_iterations
      ∧ ({} : AgentMetrics).iterations = 0)
  ∧ (solve ⟨2, 0, 0⟩ exClock exOracle {} (.ok "diff".data) 9).result.exit_reason = "timeout"
  ∧ (solve ⟨2, 0, 0⟩ exClock exOracle {} (.ok "diff".data) 9).result.metrics.iterations = 0
  ∧ (solve ⟨2, 0, 0⟩ exClock exOracle {} (.ok "diff".data) 9).final_state.oracle_calls = 0 := by
  have h1 : (⟨2, 0, 0⟩ : AgentCfg).agent_timeout = 0 := rfl
  have h2 : (0 : Rat) < exClock 1 := by
    show (0 : Rat) < 1
    norm_num
  have h3 : 1 ≤ (⟨2, 0, 0⟩ : AgentCfg).max_iterations := by norm_num
  have h4 : ({} : AgentMetrics).iterations = 0 := rfl
  have h := C8_zero_timeout ⟨2, 0, 0⟩ exClock exOracle {} (.ok "diff".data) 9 h1 h2 h3 h4
  exact ⟨⟨h1, h2, h3, h4⟩, h.1, h.2.1, h.2.2⟩

/-! ## C10: truncation reaches the captured patch -/

theorem truncatedPatch_length_le (diff : PyStr) (hgt : diff.length > MAX_OUTPUT_BYTES) :
    (truncatedPatch diff).length ≤ MAX_OUTPUT_BYTES + (truncMarker diff.length).length := by
  unfold truncatedPatch pyStrip
  calc (pyStripChars pyIsSpace (diff.take (MAX_OUTPUT_BYTES / 2) ++ truncMarker diff.length
          ++ pyTakeLast diff (MAX_OUTPUT_BYTES / 2))).length
      ≤ (diff.take (MAX_OUTPUT_BYTES / 2) ++ truncMarker diff.length
          ++ pyTakeLast diff (MAX_OUTPUT_BYTES / 2)).length := pyStripChars_length_le ..
    _ = MAX_OUTPUT_BYTES + (truncMarker diff.length).length := by
        rw [← truncateOutput_of_gt hgt]
        exact length_truncateOutput_of_gt hgt

theorem truncatedPatch_ne_nil (diff : PyStr) : truncatedPatch diff ≠ [] := by
  unfold truncatedPatch pyStrip
  refine pyStripChars_ne_nil (c := '.') ?_ (by decide)
  refine List.mem_append_left _ (List.mem_append_right _ ?_)
  unfold truncMarker
  refine List.mem_append_left _ (List.mem_append_left _ ?_)
  decide

/-- C10: `get_patch` runs `git diff` through `execute`, so a working-tree
diff longer than `MAX_OUTPUT_BYTES` comes back not as the full diff but as
its first and last halves joined by the truncation marker (then stripped),
and `patch_size_bytes` at finalize measures this truncated text. -/
theorem C10_patch_truncation (diff ds nls : PyStr) (ct : Int) (dur : Rat)
    (m : AgentMetrics) (now : Rat) (er : String)
    (hne : ds ≠ []) (hdig : ∀ c ∈ ds, c ∈ digitChars) (hnls : ∀ c ∈ nls, c = '\n')
    (hbig : MAX_OUTPUT_BYTES + (truncMarker diff.length).length < diff.length) :
    get_patch true ct ⟨diff ++ ('\n' :: (sentinelTag ++ ds)) ++ nls, false, dur⟩
      = .ok (truncatedPatch diff)
  ∧ truncatedPatch diff ≠ diff
  ∧ truncatedPatch diff ≠ []
  ∧ (finalize m now (some (truncatedPatch diff)) er).patch_size_bytes
      = utf8Len (truncatedPatch diff) := by
  have hgt : diff.length > MAX_OUTPUT_BYTES := by omega
  refine ⟨?_, ?_, truncatedPatch_ne_nil diff, ?_⟩
  · unfold get_patch
    rw [if_neg (by simp)]
    rw [execute_true]
    dsimp only
    rw [processOutput_sentinel diff ds nls hne hdig hnls]
    dsimp only
    rw [truncateOutput_of_gt hgt]
    rfl
  · intro heq
    have hlen := truncatedPatch_length_le diff hgt
    rw [heq] at hlen
    omega
  · simp [finalize, truncatedPatch_ne_nil diff]

/-- Witness for C10 at `bigDiff` with sentinel line `SWEBENCH_EXIT:0`. -/
theorem C10_witness :
    MAX_OUTPUT_BYTES + (truncMarker bigDiff.length).length < bigDiff.length
  ∧ get_patch true 120 ⟨bigDiff ++ ('\n' :: (sentinelTag ++ "0".data)) ++ [], false, 1⟩
      = .ok (truncatedPatch bigDiff)
  ∧ truncatedPatch bigDiff ≠ bigDiff
  ∧ (finalize {} 9 (some (truncatedPatch bigDiff)) "completed").patch_size_bytes
      = utf8Len (truncatedPatch bigDiff) := by
  have hbig : MAX_OUTPUT_BYTES + (truncMarker bigDiff.length).length < bigDiff.length := by
    simp only [bigDiff, List.length_replicate]
    decide
  have h := C10_patch_truncation bigDiff "0".data [] 120 1 {} 9 "completed"
    (by decide) (by decide) (by simp) hbig
  exact ⟨hbig, h.1, h.2.1, h.2.2.2⟩

end SweAgent
